import Mathlib

/-!
Verification development for the aqcia-backend ingestion core.

The Python sources are embedded shallowly:
* JSON values (Python dicts / lists / scalars) become the inductive `Json`;
  Python truthiness, `dict.get`, `str()` and `or` are modelled explicitly.
* Machine floats are modelled as exact rationals (`Rat`); the prices the
  code manipulates are short decimal fractions, where the two agree.
* Fallible code (Python exceptions) returns `Option`.
* Database tables become Lean lists in insertion order; SQLAlchemy
  `filter_by(..).first()` becomes a first-match scan, and `filter_by`
  with a `None` argument compares the column against NULL (`Option.none`),
  which is SQLAlchemy's documented behaviour.
-/

/-- A JSON value as manipulated by the Python scrapers.  Python's separate
`int`/`float` scalars are both represented by `num : Rat`. -/
inductive Json where
  | null : Json
  | bool (b : Bool) : Json
  | num (q : Rat) : Json
  | str (s : String) : Json
  | arr (xs : List Json) : Json
  | obj (fields : List (String × Json)) : Json

namespace Json

/-- Python truthiness (`bool(v)`) of a JSON value: `None`, `False`, `0`,
`""`, `[]` and `{}` are falsy, everything else truthy. -/
def pyTruthy : Json → Bool
  | .null => false
  | .bool b => b
  | .num q => !(q == 0)
  | .str s => !(s == "")
  | .arr xs => !xs.isEmpty
  | .obj fs => !fs.isEmpty

/-- Association-list lookup for an object's field (`k in d` / `d[k]`);
object keys are assumed distinct, as produced by `json.loads`. -/
def lookup (fs : List (String × Json)) (k : String) : Option Json :=
  (fs.find? (fun p => p.1 == k)).map (·.2)

/-- `d.get(k, default)` on a value known to be a dict; on a non-dict the
Python method does not exist, so callers pattern-match on `obj` first
wherever the source could raise. -/
def pyGetD (j : Json) (k : String) (dflt : Json) : Json :=
  match j with
  | .obj fs => (lookup fs k).getD dflt
  | _ => dflt

/-- Decimal rendering of a `Rat`: Python `str(int)` when integral, else a
plain decimal expansion when the denominator divides `10 ^ 12`, else the
raw fraction.  This approximates CPython's `repr(float)`; every number the
claims touch is a short decimal fraction, where the two agree. -/
def ratStr (q : Rat) : String :=
  if q.den = 1 then toString q.num
  else if (q * (10 : Rat) ^ (12 : Nat)).den = 1 then
    let scaled := (q * (10 : Rat) ^ (12 : Nat)).num.natAbs
    let ds := (Nat.repr scaled).toList
    let padded := if ds.length < 13 then List.replicate (13 - ds.length) '0' ++ ds else ds
    let ip := padded.take (padded.length - 12)
    let fp := ((padded.drop (padded.length - 12)).reverse.dropWhile (· == '0')).reverse
    let sign := if q.num < 0 then "-" else ""
    sign ++ String.mk ip ++ "." ++ (if fp.isEmpty then "0" else String.mk fp)
  else toString q

mutual

/-- `repr(v)` for a JSON value; container punctuation matches CPython. -/
def pyRepr : Json → String
  | .null => "None"
  | .bool true => "True"
  | .bool false => "False"
  | .num q => ratStr q
  | .str s => "'" ++ s ++ "'"
  | .arr xs => "[" ++ pyReprList xs ++ "]"
  | .obj fs => "\x7b" ++ pyReprFields fs ++ "\x7d"

/-- Comma-separated `repr`s of the elements of a Python list. -/
def pyReprList : List Json → String
  | [] => ""
  | [x] => pyRepr x
  | x :: y :: xs => pyRepr x ++ ", " ++ pyReprList (y :: xs)

/-- Comma-separated `'key': repr(value)` pairs of a Python dict. -/
def pyReprFields : List (String × Json) → String
  | [] => ""
  | [(k, v)] => "'" ++ k ++ "': " ++ pyRepr v
  | (k, v) :: f :: fs => "'" ++ k ++ "': " ++ pyRepr v ++ ", " ++ pyReprFields (f :: fs)

end

/-- `str(v)` for a JSON value: identity on strings, `repr`-like elsewhere
(`str(None) = "None"`, `str(True) = "True"`, numbers in decimal). -/
def pyStr : Json → String
  | .str s => s
  | .null => "None"
  | .bool true => "True"
  | .bool false => "False"
  | .num q => ratStr q
  | .arr xs => pyRepr (.arr xs)
  | .obj fs => pyRepr (.obj fs)

/-- `a or b` for an optional JSON value against `""`, as in `image or ""`. -/
def pyOrEmptyStr (o : Option Json) : Json :=
  match o with
  | some v => if pyTruthy v then v else .str ""
  | none => .str ""

/-- Truthiness of `d.get(k)`-style optional values (`None` is falsy). -/
def optTruthy (o : Option Json) : Bool :=
  match o with
  | some v => pyTruthy v
  | none => false

end Json

/-! ## Python string primitives

Character-list implementations of the `str` methods the sources use
(`.strip()`, `.replace()`, `.lower()`, substring containment); Python's
Unicode-whitespace stripping is restricted to the ASCII whitespace that
occurs in scraped text. -/

/-- ASCII whitespace as stripped by `str.strip()`. -/
def isPyWs (c : Char) : Bool :=
  c == ' ' || c == '\t' || c == '\n' || c == '\r' || c == '\x0b' || c == '\x0c'

/-- `s.strip()`. -/
def pyStrip (s : String) : String :=
  String.mk (((s.toList.dropWhile isPyWs).reverse.dropWhile isPyWs).reverse)

/-- A needle/haystack prefix test on character lists. -/
def charListStartsWith : List Char → List Char → Bool
  | [], _ => true
  | _ :: _, [] => false
  | a :: as, b :: bs => a == b && charListStartsWith as bs

/-- Python's `needle in haystack` substring test. -/
def charListContains (needle : List Char) : List Char → Bool
  | [] => needle.isEmpty
  | c :: t => charListStartsWith needle (c :: t) || charListContains needle t

/-- `k in name_lower` for strings. -/
def strContainsSub (hay needle : String) : Bool :=
  charListContains needle.toList hay.toList

/-- `s.replace(needle, repl)` on character lists: leftmost non-overlapping
occurrences; the fuel (the input length) bounds the recursion, each step
consuming at least one input character. -/
def replaceListAux (needle repl : List Char) : Nat → List Char → List Char
  | 0, cs => cs
  | _, [] => []
  | fuel + 1, c :: rest =>
      if charListStartsWith needle (c :: rest) && !needle.isEmpty then
        repl ++ replaceListAux needle repl fuel ((c :: rest).drop needle.length)
      else c :: replaceListAux needle repl fuel rest

/-- `s.replace(needle, repl)` (for the non-empty needles the sources use). -/
def pyReplace (s needle repl : String) : String :=
  String.mk (replaceListAux needle.toList repl.toList s.toList.length s.toList)

/-- `s.lower()` (ASCII case mapping). -/
def pyLower (s : String) : String :=
  String.mk (s.toList.map Char.toLower)

/-! ## Identity Resolver — `app/api/endpoints/products.py`, `create_or_update_product`

`ProductCreate` is the pydantic request schema from
`app/schemas/product_schemas.py`.  `product.dict(exclude_unset=True)` makes
the distinction between an *unset* optional field and a field explicitly
set to `None` observable, so optional fields are `Option (Option α)`:
`none` = unset (absent from `product_data`), `some v` = set to `v`.
`name` is a required field and hence always set. -/

structure ProductCreate where
  name : String
  brand : Option (Option String) := none
  api_product_id : Option (Option Int) := none
  bar_code : Option (Option String) := none
  image_url : Option (Option String) := none
  subcategory_id : Option (Option Int) := none
deriving DecidableEq, Repr

/-- A row of the `Product` table as used by `create_or_update_product`
(columns named after the SQLAlchemy model's attributes accessed there;
`app/db/models.py` itself is not in the analysed tree, so column defaults
are NULL as in spec section 6's schema surface). -/
structure DBProduct where
  name : Option String := none
  brand : Option String := none
  api_product_id : Option Int := none
  bar_code : Option String := none
  image_url : Option String := none
  subcategory_id : Option Int := none
deriving DecidableEq, Repr

/-- `product_data.get(field)`: an unset field reads as `None`. -/
def pdGet {α : Type} (field : Option (Option α)) : Option α :=
  field.getD none

/-- Replace the first list element satisfying `pred` by its image under
`f`; `none` when no element matches.  Models query-then-mutate on a table
scanned in insertion order (`filter_by(...).first()` then `setattr`). -/
def replaceFirst {α : Type} (l : List α) (pred : α → Bool) (f : α → α) :
    Option (List α) :=
  match l with
  | [] => none
  | x :: xs =>
      if pred x then some (f x :: xs)
      else (replaceFirst xs pred f).map (x :: ·)

/-- The rule-1 predicate: `filter_by(api_product_id=api_product_id)` with
`api_product_id` the (non-`None`) value carried by the observation. -/
def apiPredB (api : Option Int) (p : DBProduct) : Bool :=
  decide (p.api_product_id = api)

/-- The rule-2 predicate:
`filter_by(name=product_data.get("name"), brand=product_data.get("brand"),
bar_code=product_data.get("bar_code"))`.  A field the observation does not
provide reads as `None`, and SQLAlchemy renders a `None` keyword argument
as an `IS NULL` comparison, i.e. the column must itself be NULL. -/
def nbbPredB (obs : ProductCreate) (p : DBProduct) : Bool :=
  decide (p.name = some obs.name) && decide (p.brand = pdGet obs.brand) &&
    decide (p.bar_code = pdGet obs.bar_code)

/-- The update branch: `for field, value in product_data.items():
setattr(db_product, field, value)` — every *set* field overwrites the
column, unset fields are left untouched. -/
def applyUpdate (p : DBProduct) (obs : ProductCreate) : DBProduct :=
  { name := some obs.name
    brand := (obs.brand).getD p.brand
    api_product_id := (obs.api_product_id).getD p.api_product_id
    bar_code := (obs.bar_code).getD p.bar_code
    image_url := (obs.image_url).getD p.image_url
    subcategory_id := (obs.subcategory_id).getD p.subcategory_id }

/-- The create branch: `models.Product(**new_product_kwargs)` where
`new_product_kwargs` keeps only the allow-listed fields
`{name, brand, api_product_id, bar_code, image_url, subcategory_id}`
(every `ProductCreate` field is allow-listed); unset columns default to
NULL. -/
def newProduct (obs : ProductCreate) : DBProduct :=
  { name := some obs.name
    brand := pdGet obs.brand
    api_product_id := pdGet obs.api_product_id
    bar_code := pdGet obs.bar_code
    image_url := pdGet obs.image_url
    subcategory_id := pdGet obs.subcategory_id }

/-- `create_or_update_product` (POST handler body): prefer an exact match
on `api_product_id` when the observation carries one; otherwise (carries
none, or no row matched) fall back to the (name, brand, bar_code) lookup;
update the first matched row in place, or append a freshly populated row. -/
def create_or_update_product (db : List DBProduct) (obs : ProductCreate) :
    List DBProduct :=
  let api := pdGet obs.api_product_id
  let viaApi :=
    if api.isSome then replaceFirst db (apiPredB api) (applyUpdate · obs)
    else none
  match viaApi with
  | some db' => db'
  | none =>
      match replaceFirst db (nbbPredB obs) (applyUpdate · obs) with
      | some db' => db'
      | none => db ++ [newProduct obs]

/-- Modelled from the spec: the Identity Resolver's rule 2 as the spec
states it — "exact match on (name, brand, barcode) for whichever of those
three fields the observation provides (fields it does not provide are
excluded from the match predicate, not treated as NULL-equals-NULL)".
Used only to compare the spec's wording against the code. -/
def specRule2PredB (obs : ProductCreate) (p : DBProduct) : Bool :=
  decide (p.name = some obs.name) &&
    (match obs.brand with
     | some b => decide (p.brand = b)
     | none => true) &&
    (match obs.bar_code with
     | some c => decide (p.bar_code = c)
     | none => true)

/-! ## Tree Extractor — `app/services/spar_scraper.py`

Key-alias tables, `as_price`, `first_non_empty`, `RowSink` and
`extract_items_merged`.  The Python source stores the alias tables as
`set` literals; the embedding fixes their iteration order to the literal
order of the source.  The context dict `\x7bcat, sub, name, price, image\x7d`
becomes the structure `Ctx` (an absent key = `none`). -/

def NAME_KEYS : List String :=
  ["name", "title", "productName", "product_name", "caption", "label",
   "fullName", "displayName"]

def PRICE_KEYS : List String :=
  ["price", "currentPrice", "salePrice", "unitPrice", "priceValue",
   "amount", "value", "finalPrice"]

def IMAGE_KEYS : List String :=
  ["image", "imageUrl", "imageURL", "img", "thumbnail", "picture",
   "photo", "imageurl", "image_src"]

def CATEGORY_KEYS : List String :=
  ["category", "categoryName", "category_name", "group", "groupName",
   "categoryTitle"]

def SUBCATEGORY_KEYS : List String :=
  ["subcategory", "subCategory", "subcategoryName", "sub_category_name",
   "subGroup", "subgroupName", "subCategoryTitle"]

/-- `d[k] not in (None, "", [], \x7b\x7d)` — the emptiness filter of
`first_non_empty` (note that `0` and `False` pass it). -/
def nonEmptyVal : Json → Bool
  | .null => false
  | .str s => !(s == "")
  | .arr xs => !xs.isEmpty
  | .obj fs => !fs.isEmpty
  | _ => true

/-- `first_non_empty(d, keys)`: the value of the first listed key that is
present in the dict with a non-empty value, else `None`. -/
def first_non_empty (fields : List (String × Json)) : List String → Option Json
  | [] => none
  | k :: ks =>
      match Json.lookup fields k with
      | some v => if nonEmptyVal v then some v else first_non_empty fields ks
      | none => first_non_empty fields ks

/-- Value of a digit character. -/
def digitVal (c : Char) : Nat := c.toNat - '0'.toNat

/-- Value of a digit string (most significant first). -/
def digitsNat (cs : List Char) : Nat :=
  cs.foldl (fun a c => 10 * a + digitVal c) 0

/-- The numeric value `float(intPart.sep.fracPart)` of a matched group,
with the separator normalised to a decimal point
(`m.group(1).replace(",", ".")`); exact where the float is a short
decimal. -/
def groupVal (intPart fracPart : List Char) : Rat :=
  (digitsNat intPart : Rat) + (digitsNat fracPart : Rat) / (10 : Rat) ^ fracPart.length

/-- The regex match at a position whose head is a digit:
`[0-9]+` maximally, then optionally `[.,][0-9]\x7b1,2\x7d` (greedy, capped at
two fractional digits), mirroring `([0-9]+(?:[.,][0-9]\x7b1,2\x7d)?)`. -/
def numAt (cs : List Char) : Rat :=
  let ip := cs.takeWhile Char.isDigit
  match cs.dropWhile Char.isDigit with
  | sep :: d1 :: rest =>
      if (sep == ',' || sep == '.') && d1.isDigit then
        match rest with
        | d2 :: _ => if d2.isDigit then groupVal ip [d1, d2] else groupVal ip [d1]
        | [] => groupVal ip [d1]
      else groupVal ip []
  | _ => groupVal ip []

/-- `re.search` for the price pattern: leftmost match wins; `none` when the
string holds no digit at all. -/
def scanNum : List Char → Option Rat
  | [] => none
  | c :: cs => if c.isDigit then some (numAt (c :: cs)) else scanNum cs

/-- `as_price(v)`: `None` stays absent, numbers (incl. `bool`, a Python
`int` subclass) pass through `float`, anything else is stringified and
searched for the first number token. -/
def as_price : Json → Option Rat
  | .null => none
  | .num q => some q
  | .bool b => some (if b then 1 else 0)
  | v => scanNum (Json.pyStr v).toList

/-- `as_price` over an optional context slot (`new_ctx.get("price")`). -/
def as_priceOpt (o : Option Json) : Option Rat :=
  match o with
  | some v => as_price v
  | none => none

/-- The context dict threaded through `extract_items_merged`. -/
structure Ctx where
  cat : Option Json := none
  sub : Option Json := none
  name : Option Json := none
  price : Option Json := none
  image : Option Json := none

/-- The per-level context update: for each slot, a non-empty value found at
this map node overrides the inherited one, otherwise the parent's value is
kept. -/
def updateCtx (fields : List (String × Json)) (ctx : Ctx) : Ctx :=
  { cat := (first_non_empty fields CATEGORY_KEYS).or ctx.cat
    sub := (first_non_empty fields SUBCATEGORY_KEYS).or ctx.sub
    name := (first_non_empty fields NAME_KEYS).or ctx.name
    price := (first_non_empty fields PRICE_KEYS).or ctx.price
    image := (first_non_empty fields IMAGE_KEYS).or ctx.image }

/-- One output row of `RowSink.add`, which is also its dedup key: the
source keys on `(str(cat or ""), str(sub or ""), str(name or ""),
str(image or ""), f"\x7bprice\x7d")` and writes the same data to the CSV.  The
price component stays a `Option Rat` here; CPython's float formatting is
injective, so dedup equality is unchanged. -/
structure Row where
  category : String
  subcategory : String
  name : String
  image : String
  price : Option Rat
deriving DecidableEq, Repr

/-- `str(v or "")` as applied to the category/subcategory slots in
`RowSink.add`. -/
def strOrEmpty (o : Option Json) : String :=
  Json.pyStr (Json.pyOrEmptyStr o)

/-- The `RowSink`: a CSV writer plus the in-run dedup set `seen`.  The open
file handle becomes the `rows` list (in write order). -/
structure RowSink where
  seen : List Row := []
  rows : List Row := []
deriving DecidableEq, Repr

/-- `RowSink.add`: drop the row if its key was already seen, else record
the key and append the row. -/
def RowSink.add (sink : RowSink) (cat sub : Option Json) (name image : String)
    (price : Option Rat) : RowSink :=
  let key : Row := ⟨strOrEmpty cat, strOrEmpty sub, name, image, price⟩
  if key ∈ sink.seen then sink
  else { seen := key :: sink.seen, rows := sink.rows ++ [key] }

/-- The emission gate of `extract_items_merged`:
`if name and (price is not None or image)`. -/
def emitCond (c : Ctx) : Bool :=
  Json.optTruthy c.name && ((as_priceOpt c.price).isSome || Json.optTruthy c.image)

/-- The row handed to `sink.add` when the gate fires:
`(new_ctx.get("cat"), new_ctx.get("sub"), str(name).strip(),
str(image or "").strip(), price)`. -/
def mkRow (c : Ctx) : Row :=
  ⟨strOrEmpty c.cat, strOrEmpty c.sub,
   pyStrip (Json.pyStr (c.name.getD .null)),
   pyStrip (Json.pyStr (Json.pyOrEmptyStr c.image)),
   as_priceOpt c.price⟩

/-- `extract_items_merged`, with the remaining depth budget
`max_depth + 1 - depth` made explicit as structural fuel: the source
returns as soon as `depth > max_depth` and recurses with `depth + 1`, so
the budget is exactly this fuel. -/
def extractAux : Nat → Json → Ctx → RowSink → RowSink
  | 0, _, _, sink => sink
  | fuel + 1, node, ctx, sink =>
      match node with
      | .obj fields =>
          let newCtx := updateCtx fields ctx
          let sink1 :=
            if emitCond newCtx then
              sink.add newCtx.cat newCtx.sub
                (pyStrip (Json.pyStr (newCtx.name.getD .null)))
                (pyStrip (Json.pyStr (Json.pyOrEmptyStr newCtx.image)))
                (as_priceOpt newCtx.price)
            else sink
          fields.foldl (fun s p => extractAux fuel p.2 newCtx s) sink1
      | .arr xs => xs.foldl (fun s v => extractAux fuel v ctx s) sink
      | _ => sink

/-- `extract_items_merged(node, ctx, sink, depth=0, max_depth=20)`. -/
def extract_items_merged (node : Json) (ctx : Ctx) (sink : RowSink)
    (depth : Nat := 0) (maxDepth : Nat := 20) : RowSink :=
  extractAux (maxDepth + 1 - depth) node ctx sink

/-! ## Paginated-JSON adapter — `app/services/Spar (New 2).py`

`get_json` (bounded retry), `parse_product` and `fetch_all_products`.
The network is abstracted as oracles: `attempt i` is the outcome of the
`i`-th request attempt (`none` = exception), `fetch page` the outcome of
`get_json` for that page.  An uncaught Python exception is `none`; the
unbounded `while True` pagination loop takes explicit fuel. -/

def MAX_RETRIES : Nat := 3

/-- The `for attempt in range(1, retries + 1)` body of `get_json`: return
the first successful attempt, fall through on failure. -/
def getJsonAux (attempt : Nat → Option Json) : Nat → Nat → Option Json
  | 0, _ => none
  | k + 1, i =>
      match attempt i with
      | some j => some j
      | none => getJsonAux attempt k (i + 1)

/-- `get_json(url, retries=MAX_RETRIES)`: attempts `1 .. retries` in order,
returning `None` (not raising) after the final failure. -/
def get_json (attempt : Nat → Option Json) (retries : Nat := MAX_RETRIES) :
    Option Json :=
  getJsonAux attempt retries 1

/-- The parsed record of `parse_product` (CSV column values).  The fields
the source passes through `str()` are strings; `Image URL` and `Barcode`
are stored raw. -/
structure SparParsed where
  id : String
  name : String
  price : String
  previousPrice : String
  isOnSale : String
  imageUrl : Json
  barcode : Json

/-- `parse_product(product)`: `None` (the `except` branch) exactly when a
lookup raises — the value is not a dict, or its `name` is present but not
a string (so `.strip()` raises).  `Is On Sale` is
`str(bool(product.get("previousPrice")))`: the truthiness of
`previousPrice` alone. -/
def parse_product (product : Json) : Option SparParsed :=
  match product with
  | .obj fs =>
      match (Json.lookup fs "name").getD (.str "") with
      | .str nameS =>
          let prev := (Json.lookup fs "previousPrice").getD .null
          some
            { id := Json.pyStr ((Json.lookup fs "id").getD .null)
              name := pyStrip nameS
              price := Json.pyStr ((Json.lookup fs "price").getD .null)
              previousPrice := Json.pyStr (Json.pyOrEmptyStr (some prev))
              isOnSale := if Json.pyTruthy prev then "True" else "False"
              imageUrl := (Json.lookup fs "imageUrl").getD (.str "")
              barcode := (Json.lookup fs "barCode").getD (.str "") }
      | _ => none
  | _ => none

/-- Python iteration over a JSON value: lists yield elements, strings yield
one-character strings, dicts yield their keys; scalars raise `TypeError`. -/
def pyIter : Json → Option (List Json)
  | .arr xs => some xs
  | .str s => some (s.toList.map (fun c => .str (String.mk [c])))
  | .obj fs => some (fs.map (fun p => .str p.1))
  | _ => none

/-- `fetch_all_products(category_id)` with the page fetch (`get_json` on
the page URL) abstracted as `fetch`.  Arguments: fuel, then current page
number.  `some products` is a normal return, `none` an uncaught exception
(or exhausted fuel, arbitrarily, since the source loop is unbounded).
The continuation check keeps Python's `or` short-circuit:
`json_data.get("hasNextPage") or json_data.get("pagination", {}).get("hasNext")
or json_data.get("hasNext", False)`. -/
def fetch_all_products (fetch : Nat → Option Json) : Nat → Nat → Option (List SparParsed)
  | 0, _ => none
  | fuel + 1, page =>
      match fetch page with
      | none => some []
      | some jd =>
          if !Json.pyTruthy jd then some []
          else
            match jd with
            | .obj fs =>
                let items := (Json.lookup fs "products").getD (.arr [])
                if !Json.pyTruthy items then some []
                else
                  match pyIter items with
                  | none => none
                  | some elems =>
                      let parsed := elems.filterMap parse_product
                      let hn1 := (Json.lookup fs "hasNextPage").getD .null
                      let cont? : Option Bool :=
                        if Json.pyTruthy hn1 then some true
                        else
                          match (Json.lookup fs "pagination").getD (.obj []) with
                          | .obj pfs =>
                              let hn2 := (Json.lookup pfs "hasNext").getD .null
                              if Json.pyTruthy hn2 then some true
                              else some (Json.pyTruthy
                                ((Json.lookup fs "hasNext").getD (.bool false)))
                          | _ => none
                      match cont? with
                      | none => none
                      | some false => some parsed
                      | some true =>
                          match fetch_all_products fetch fuel (page + 1) with
                          | none => none
                          | some rest => some (parsed ++ rest)
            | _ => none

/-- "Any continuation field true" — the three pagination fields read by
`fetch_all_products`, disjoined (the claim's reading of the check). -/
def anyNextB (fs pfs : List (String × Json)) : Bool :=
  Json.pyTruthy ((Json.lookup fs "hasNextPage").getD .null) ||
    Json.pyTruthy ((Json.lookup pfs "hasNext").getD .null) ||
    Json.pyTruthy ((Json.lookup fs "hasNext").getD (.bool false))

/-! ## GraphQL-style JSON adapter — `app/services/spar new 3 .py`

The per-product record builder of `parse_and_collect_products`. -/

/-- One record of `parse_and_collect_products` (dict values kept raw; the
`Is On Sale` entry is the Python `bool`). -/
structure CollectedProduct where
  productId : Json
  name : Json
  price : Json
  previousPrice : Json
  isOnSale : Bool
  category : Json
  subcategory : Json
  imageUrl : Json

/-- The record built for one `p` in the loop body; `none` when a `.get`
raises (`p` or `category` not a dict, or a truthy non-dict subcategory).
`Is On Sale` is `bool(p.get("previousPrice"))`. -/
def collectRecord (p category : Json) (subcategory : Option Json) :
    Option CollectedProduct :=
  match p, category with
  | .obj pfs, .obj cfs =>
      let subName : Option Json :=
        match subcategory with
        | some s =>
            if Json.pyTruthy s then
              match s with
              | .obj sfs => some ((Json.lookup sfs "name").getD .null)
              | _ => none
            else some .null
        | none => some .null
      match subName with
      | none => none
      | some sn =>
          some
            { productId := (Json.lookup pfs "id").getD .null
              name := (Json.lookup pfs "name").getD .null
              price := (Json.lookup pfs "price").getD .null
              previousPrice := (Json.lookup pfs "previousPrice").getD .null
              isOnSale := Json.pyTruthy ((Json.lookup pfs "previousPrice").getD .null)
              category := (Json.lookup cfs "name").getD .null
              subcategory := sn
              imageUrl := (Json.lookup pfs "imageUrl").getD .null }
  | _, _ => none

/-- The `for p in grouped_products` loop with its enclosing `try`: an
exception ends the loop and returns what was collected so far. -/
def collectLoop (category : Json) (subcategory : Option Json) :
    List Json → List CollectedProduct → List CollectedProduct
  | [], acc => acc
  | p :: rest, acc =>
      match collectRecord p category subcategory with
      | some r => collectLoop category subcategory rest (acc ++ [r])
      | none => acc

/-- `parse_and_collect_products(api_data, category, subcategory)`:
`api_data.get("products", [])` then the collection loop; any raising shape
yields the records collected before the exception (`[]` when iteration
cannot start). -/
def parse_and_collect_products (apiData category : Json)
    (subcategory : Option Json) : List CollectedProduct :=
  match apiData with
  | .obj afs =>
      match (Json.lookup afs "products").getD (.arr []) with
      | .arr ps => collectLoop category subcategory ps []
      | _ => []
  | _ => []

/-! ## Ingestion Orchestrator report (spec sections 6 and 8) -/

/-- Modelled from the spec: `IngestionReport` — the analysed tree has no
`IngestionReport`/`RunIngestion` code (spec section 6 lists them as the
orchestrator's exposed surface), so the report record is taken from the
spec's words: per-run counters plus the `errors[]` list. -/
structure IngestionReport where
  productsSeen : Nat := 0
  errors : List String := []
deriving DecidableEq, Repr

/-- Items of one fetched page payload (`json_data.get("products", [])`,
non-list shapes contributing nothing). -/
def pageItems (jd : Json) : List Json :=
  match jd with
  | .obj fs =>
      match (Json.lookup fs "products").getD (.arr []) with
      | .arr xs => xs
      | _ => []
  | _ => []

/-- Modelled from the spec: `RunIngestion`'s category loop — the analysed
tree has no orchestrator accounting code, so this follows spec sections
4.5, 6 and 8: each category's page is fetched through `get_json` at the
configured retry bound; a fetch that still fails is counted in
`IngestionReport.errors` and the loop continues with the remaining
categories.  `oracle cat i` is the outcome of attempt `i` for `cat`. -/
def RunIngestion (oracle : String → Nat → Option Json) (cats : List String) :
    IngestionReport :=
  cats.foldl
    (fun rep cat =>
      match get_json (oracle cat) MAX_RETRIES with
      | none => { rep with errors := rep.errors ++ [cat] }
      | some jd => { rep with productsSeen := rep.productsSeen + (pageItems jd).length })
    {}

/-! ## HTML catalog import — `app/services/spar_product_import.py`

`categorize_product` and the per-card body of the page loop in
`fetch_and_store_products`.  The database session becomes `ImportState`
(tables in insertion order, ids = indices); a parsed product card becomes
`Card` (the selected DOM nodes' text/attributes, `none` when the selector
found nothing). -/

/-- `CATEGORY_KEYWORDS` in the source dict's insertion order (the `Frozen`
list's third entry carries the source's non-breaking hyphen). -/
def CATEGORY_KEYWORDS : List (String × List String) :=
  [("Milk & Dairy", ["milk", "cheese", "yogurt", "butter", "egg"]),
   ("Meat & Fish", ["meat", "fish", "chicken", "beef", "sausage"]),
   ("Drinks", ["juice", "cola", "soda", "water", "tea", "coffee"]),
   ("Snacks", ["chips", "snack", "chocolate", "cookie", "biscuit"]),
   ("Bakery", ["bread", "bakery", "pastry", "cake"]),
   ("Frozen", ["frozen", "ice", "ice‑cream"]),
   ("Sweets", ["sweet", "candy", "chocolate"]),
   ("Coffee & Tea", ["coffee", "tea", "cocoa"]),
   ("Household & Hygiene", ["soap", "detergent", "cleaner", "hygiene", "tissue"]),
   ("Animal Care", ["pet", "animal", "dog", "cat", "food"]),
   ("Other", [])]

/-- The keyword scan of `categorize_product`: first table entry with a
keyword occurring in the lowercased name. -/
def categorizeScan (nameLower : String) : List (String × List String) → String
  | [] => "Other"
  | (cat, kws) :: rest =>
      if kws.any (fun k => strContainsSub nameLower k) then cat
      else categorizeScan nameLower rest

/-- `categorize_product(name)`. -/
def categorize_product (name : String) : String :=
  categorizeScan (pyLower name) CATEGORY_KEYWORDS

/-- Python `float(s)` on a cleaned price string: optional sign, decimal
digits with an optional point, optional exponent; `none` on anything else
(`ValueError`).  Unmodelled exotic accepted forms (`inf`, `nan`, digit
group underscores, non-ASCII digits) do not occur in price texts. -/
def pyFloat (s : String) : Option Rat :=
  let cs := s.toList
  let sign : Rat := match cs with
    | '-' :: _ => -1
    | _ => 1
  let cs1 := match cs with
    | '+' :: t => t
    | '-' :: t => t
    | t => t
  let ip := cs1.takeWhile Char.isDigit
  let r1 := cs1.dropWhile Char.isDigit
  let fp := match r1 with
    | '.' :: t => t.takeWhile Char.isDigit
    | _ => []
  let r2 := match r1 with
    | '.' :: t => t.dropWhile Char.isDigit
    | t => t
  if ip.isEmpty && fp.isEmpty then none
  else
    let mantissa := sign * ((digitsNat ip : Rat) + (digitsNat fp : Rat) / (10 : Rat) ^ fp.length)
    match r2 with
    | [] => some mantissa
    | e :: t =>
        if e == 'e' || e == 'E' then
          let esign : Int := match t with
            | '-' :: _ => -1
            | _ => 1
          let t1 := match t with
            | '+' :: u => u
            | '-' :: u => u
            | u => u
          let ed := t1.takeWhile Char.isDigit
          let r3 := t1.dropWhile Char.isDigit
          if ed.isEmpty || !r3.isEmpty then none
          else some (mantissa * (10 : Rat) ^ (esign * (digitsNat ed : Int)))
        else none

/-- One product card as the selectors see it: the text of the name node
(`.title` / `.product-name`), the text of the price node
(`.price` / `.product-price`), and `img['src']` when present. -/
structure Card where
  nameText : Option String := none
  priceText : Option String := none
  imgSrc : Option String := none
deriving DecidableEq, Repr

/-- A `Product` row as created by `fetch_and_store_products`. -/
structure ImportProduct where
  name : String
  image : Option String
  store_id : Nat
  category_id : Nat
deriving DecidableEq, Repr

/-- The database state touched by `fetch_and_store_products`: `Category`
rows (by name, id = index), `Product` rows (id = index), and the
append-only `Price` rows `(product_id, price)`; the `date` timestamp
column is not modelled. -/
structure ImportState where
  categories : List String := []
  products : List ImportProduct := []
  prices : List (Nat × Rat) := []
deriving DecidableEq, Repr

/-- The per-card body of the `for p in products` loop of
`fetch_and_store_products`: skip when no name node; default the raw price
text to `"0"` when no price node; strip currency/comma and `float(...)`,
defaulting to `0.0` on `ValueError`; get-or-create the category and the
`(name, store_id)` product; append a `Price` row. -/
def processCard (st : ImportState) (storeId : Nat) (card : Card) : ImportState :=
  match card.nameText with
  | none => st
  | some nt =>
      let name := pyStrip nt
      let raw_price := match card.priceText with
        | some t => pyStrip t
        | none => "0"
      let price := (pyFloat (pyStrip (pyReplace (pyReplace raw_price "₾" "") "," "."))).getD 0
      let category_name := categorize_product name
      let cats := match st.categories.findIdx? (· == category_name) with
        | some _ => st.categories
        | none => st.categories ++ [category_name]
      let catId := (cats.findIdx? (· == category_name)).getD 0
      let (prodId, prods) :=
        match st.products.findIdx? (fun p => p.name == name && p.store_id == storeId) with
        | some i => (i, st.products)
        | none =>
            (st.products.length,
             st.products ++ [{ name := name, image := card.imgSrc,
                               store_id := storeId, category_id := catId }])
      { categories := cats, products := prods, prices := st.prices ++ [(prodId, price)] }

/-- The identity key actually used by the code for a given observation:
the external id when carried, else the (name, brand, bar_code) predicate. -/
def identityPredB (obs : ProductCreate) : DBProduct → Bool :=
  if (pdGet obs.api_product_id).isSome then apiPredB (pdGet obs.api_product_id)
  else nbbPredB obs

/-- A context name slot that cannot fire the emission gate: absent, or
present with a falsy value. -/
def nameDeadB (o : Option Json) : Bool := !(Json.optTruthy o)

/-- Depth-indexed "no truthy name anywhere the traversal can reach": at
every map node within `fuel` levels, the name-alias scan yields nothing
truthy (prices and images may well be present). -/
def nameFreeAux : Nat → Json → Bool
  | 0, _ => true
  | fuel + 1, node =>
      match node with
      | .obj fields =>
          !(Json.optTruthy (first_non_empty fields NAME_KEYS)) &&
            fields.all (fun p => nameFreeAux fuel p.2)
      | .arr xs => xs.all (nameFreeAux fuel)
      | _ => true

/-- Statement vocabulary: `s'` extends sink `s` by appending only rows
satisfying `P` (and never losing a seen key). -/
def SinkExtends (P : Row → Prop) (s s' : RowSink) : Prop :=
  (∃ l, s'.rows = s.rows ++ l ∧ ∀ r ∈ l, P r) ∧ ∀ k ∈ s.seen, k ∈ s'.seen

/-! ## Library lemmas about the embedding's building blocks -/

theorem replaceFirst_eq_none {α : Type} {l : List α} {pred : α → Bool} {f : α → α} :
    replaceFirst l pred f = none ↔ ∀ x ∈ l, pred x = false := by
  induction l with
  | nil => simp [replaceFirst]
  | cons x xs ih =>
      cases hx : pred x with
      | true => simp [replaceFirst, hx]
      | false => simp [replaceFirst, hx, ih]

theorem replaceFirst_eq_some {α : Type} {l l' : List α} {pred : α → Bool} {f : α → α}
    (h : replaceFirst l pred f = some l') :
    ∃ l1 r l2, l = l1 ++ r :: l2 ∧ l' = l1 ++ f r :: l2 ∧ pred r = true ∧
      ∀ x ∈ l1, pred x = false := by
  induction l generalizing l' with
  | nil => simp [replaceFirst] at h
  | cons x xs ih =>
      cases hx : pred x with
      | true =>
          simp [replaceFirst, hx] at h
          exact ⟨[], x, xs, by simp, by simp [h], hx, by simp⟩
      | false =>
          simp only [replaceFirst, hx, Bool.false_eq_true, if_false] at h
          obtain ⟨l'', hl'', rfl⟩ := Option.map_eq_some'.mp h
          obtain ⟨l1, r, l2, h1, h2, h3, h4⟩ := ih hl''
          refine ⟨x :: l1, r, l2, by simp [h1], by simp [h2], h3, ?_⟩
          intro y hy
          rcases List.mem_cons.mp hy with rfl | hy
          · exact hx
          · exact h4 y hy

theorem replaceFirst_of_split {α : Type} (l1 : List α) {r : α} (l2 : List α)
    {pred : α → Bool} {f : α → α} (h1 : ∀ x ∈ l1, pred x = false)
    (h2 : pred r = true) :
    replaceFirst (l1 ++ r :: l2) pred f = some (l1 ++ f r :: l2) := by
  induction l1 with
  | nil => simp [replaceFirst, h2]
  | cons x xs ih =>
      have hx : pred x = false := h1 x (List.mem_cons_self x xs)
      have ih' := ih (fun y hy => h1 y (List.mem_cons_of_mem x hy))
      simp [replaceFirst, hx, ih']

theorem applyUpdate_applyUpdate (p : DBProduct) (obs : ProductCreate) :
    applyUpdate (applyUpdate p obs) obs = applyUpdate p obs := by
  simp only [applyUpdate]
  cases obs.brand <;> cases obs.api_product_id <;> cases obs.bar_code <;>
    cases obs.image_url <;> cases obs.subcategory_id <;> rfl

theorem applyUpdate_newProduct (obs : ProductCreate) :
    applyUpdate (newProduct obs) obs = newProduct obs := by
  simp only [applyUpdate, newProduct, pdGet]
  cases obs.brand <;> cases obs.api_product_id <;> cases obs.bar_code <;>
    cases obs.image_url <;> cases obs.subcategory_id <;> rfl

theorem apiPredB_newProduct (obs : ProductCreate) :
    apiPredB (pdGet obs.api_product_id) (newProduct obs) = true := by
  simp [apiPredB, newProduct]

theorem nbbPredB_newProduct (obs : ProductCreate) :
    nbbPredB obs (newProduct obs) = true := by
  simp [nbbPredB, newProduct]

theorem apiPredB_applyUpdate (p : DBProduct) (obs : ProductCreate)
    (h : (pdGet obs.api_product_id).isSome = true) :
    apiPredB (pdGet obs.api_product_id) (applyUpdate p obs) = true := by
  simp only [apiPredB, applyUpdate, decide_eq_true_eq]
  cases hapi : obs.api_product_id with
  | none => simp [pdGet, hapi] at h
  | some v => simp [pdGet, hapi]

theorem nbbPredB_applyUpdate (p : DBProduct) (obs : ProductCreate)
    (h : nbbPredB obs p = true) :
    nbbPredB obs (applyUpdate p obs) = true := by
  simp only [nbbPredB, Bool.and_eq_true, decide_eq_true_eq] at h ⊢
  obtain ⟨⟨h1, h2⟩, h3⟩ := h
  refine ⟨⟨by simp [applyUpdate], ?_⟩, ?_⟩
  · cases hb : obs.brand with
    | none => simp [applyUpdate, hb, h2, pdGet]
    | some v => simp [applyUpdate, hb, pdGet]
  · cases hb : obs.bar_code with
    | none => simp [applyUpdate, hb, h3, pdGet]
    | some v => simp [applyUpdate, hb, pdGet]

/-! ## Claim C1 -/

/-- C1 (amended): the Resolver evaluates the identity key chain in fixed
order, stopping at the first rule that matches — an exact match on
`api_product_id` when the observation carries one, then the
(name, brand, bar_code) lookup, then creation — but in the second rule the
fields the observation does not provide are *included* in the match
predicate as NULL comparisons (NULL-equals-NULL), not excluded: a product
whose `brand`/`bar_code` column is non-NULL never matches an observation
lacking that field. -/
theorem C1_resolver_key_chain (db : List DBProduct) (obs : ProductCreate) :
    (∀ db', (pdGet obs.api_product_id).isSome = true →
        replaceFirst db (apiPredB (pdGet obs.api_product_id)) (applyUpdate · obs) = some db' →
        create_or_update_product db obs = db') ∧
    (∀ db', ((pdGet obs.api_product_id).isSome = true →
          replaceFirst db (apiPredB (pdGet obs.api_product_id)) (applyUpdate · obs) = none) →
        replaceFirst db (nbbPredB obs) (applyUpdate · obs) = some db' →
        create_or_update_product db obs = db') ∧
    (((pdGet obs.api_product_id).isSome = true →
          replaceFirst db (apiPredB (pdGet obs.api_product_id)) (applyUpdate · obs) = none) →
        replaceFirst db (nbbPredB obs) (applyUpdate · obs) = none →
        create_or_update_product db obs = db ++ [newProduct obs]) ∧
    (∀ p, pdGet obs.brand = none → nbbPredB obs p = true → p.brand = none) ∧
    (∀ p, pdGet obs.bar_code = none → nbbPredB obs p = true → p.bar_code = none) := by
  refine ⟨?_, ?_, ?_, ?_, ?_⟩
  · intro db' hs hr
    simp [create_or_update_product, hs, hr]
  · intro db' hnone hr
    cases h : (pdGet obs.api_product_id).isSome with
    | true => simp [create_or_update_product, h, hnone h, hr]
    | false => simp [create_or_update_product, h, hr]
  · intro hnone hr
    cases h : (pdGet obs.api_product_id).isSome with
    | true => simp [create_or_update_product, h, hnone h, hr]
    | false => simp [create_or_update_product, h, hr]
  · intro p hb hp
    simp only [nbbPredB, Bool.and_eq_true, decide_eq_true_eq] at hp
    rw [hp.1.2, hb]
  · intro p hb hp
    simp only [nbbPredB, Bool.and_eq_true, decide_eq_true_eq] at hp
    rw [hp.2, hb]

/-- C1 counterexample: for the observation `{name: "Milk"}` (no brand, no
barcode) against a table holding `(name "Milk", brand "X")`, the spec's
rule 2 — missing fields excluded from the predicate — matches the existing
product, yet the code's predicate does not (it requires `brand IS NULL`),
so a second row is created instead of updating the first. -/
theorem C1_counterexample :
    (([({ name := some "Milk", brand := some "X" } : DBProduct)].find?
        (specRule2PredB { name := "Milk" })).isSome = true) ∧
    (create_or_update_product [{ name := some "Milk", brand := some "X" }]
        { name := "Milk" }).length = 2 := by
  constructor
  · decide
  · decide

/-- C1 witness: rule 1 firing on a concrete table and observation. -/
theorem C1_witness :
    ((pdGet ({ name := "B", api_product_id := some (some 5) } : ProductCreate).api_product_id).isSome = true) ∧
    replaceFirst [({ name := some "A", api_product_id := some 5 } : DBProduct)]
        (apiPredB (pdGet ({ name := "B", api_product_id := some (some 5) } : ProductCreate).api_product_id))
        (applyUpdate · { name := "B", api_product_id := some (some 5) }) =
      some [{ name := some "B", api_product_id := some 5 }] ∧
    create_or_update_product [({ name := some "A", api_product_id := some 5 } : DBProduct)]
        { name := "B", api_product_id := some (some 5) } =
      [{ name := some "B", api_product_id := some 5 }] :=
  ⟨by decide, by decide,
    (C1_resolver_key_chain [{ name := some "A", api_product_id := some 5 }]
        { name := "B", api_product_id := some (some 5) }).1
      [{ name := some "B", api_product_id := some 5 }] (by decide) (by decide)⟩

/-! ## Claim C2 -/

/-- When neither rule matches, the Resolver appends a freshly populated row. -/
theorem create_of_no_match (db : List DBProduct) (obs : ProductCreate)
    (hApi : (pdGet obs.api_product_id).isSome = true →
      replaceFirst db (apiPredB (pdGet obs.api_product_id)) (applyUpdate · obs) = none)
    (hNbb : replaceFirst db (nbbPredB obs) (applyUpdate · obs) = none) :
    create_or_update_product db obs = db ++ [newProduct obs] := by
  cases h : (pdGet obs.api_product_id).isSome with
  | true => simp [create_or_update_product, h, hApi h, hNbb]
  | false => simp [create_or_update_product, h, hNbb]

/-- One application of the Resolver is absorbing: re-running it on its own
output with the same observation changes nothing. -/
theorem create_step_idem (d : List DBProduct) (o : ProductCreate) :
    create_or_update_product (create_or_update_product d o) o =
      create_or_update_product d o := by
  cases hs : (pdGet o.api_product_id).isSome with
  | true =>
      cases h1 : replaceFirst d (apiPredB (pdGet o.api_product_id)) (applyUpdate · o) with
      | some d' =>
          obtain ⟨l1, r, l2, hd, hd', hr, hl1⟩ := replaceFirst_eq_some h1
          subst hd hd'
          have e1 : create_or_update_product (l1 ++ r :: l2) o =
              l1 ++ applyUpdate r o :: l2 := by
            simp [create_or_update_product, hs, h1]
          have h2 : replaceFirst (l1 ++ applyUpdate r o :: l2)
              (apiPredB (pdGet o.api_product_id)) (applyUpdate · o) =
              some (l1 ++ applyUpdate (applyUpdate r o) o :: l2) :=
            replaceFirst_of_split l1 l2 hl1 (apiPredB_applyUpdate r o hs)
          rw [e1]
          simp [create_or_update_product, hs, h2, applyUpdate_applyUpdate]
      | none =>
          have hall : ∀ x ∈ d, apiPredB (pdGet o.api_product_id) x = false :=
            replaceFirst_eq_none.mp h1
          cases h2 : replaceFirst d (nbbPredB o) (applyUpdate · o) with
          | some d' =>
              obtain ⟨l1, r, l2, hd, hd', hr, hl1⟩ := replaceFirst_eq_some h2
              subst hd hd'
              have e1 : create_or_update_product (l1 ++ r :: l2) o =
                  l1 ++ applyUpdate r o :: l2 := by
                simp [create_or_update_product, hs, h1, h2]
              have h3 : replaceFirst (l1 ++ applyUpdate r o :: l2)
                  (apiPredB (pdGet o.api_product_id)) (applyUpdate · o) =
                  some (l1 ++ applyUpdate (applyUpdate r o) o :: l2) :=
                replaceFirst_of_split l1 l2
                  (fun x hx => hall x (by simp [hx]))
                  (apiPredB_applyUpdate r o hs)
              rw [e1]
              simp [create_or_update_product, hs, h3, applyUpdate_applyUpdate]
          | none =>
              have e1 : create_or_update_product d o = d ++ [newProduct o] :=
                create_of_no_match d o (fun _ => h1) h2
              have h3 : replaceFirst (d ++ newProduct o :: [])
                  (apiPredB (pdGet o.api_product_id)) (applyUpdate · o) =
                  some (d ++ applyUpdate (newProduct o) o :: []) :=
                replaceFirst_of_split d [] hall (apiPredB_newProduct o)
              rw [e1]
              simp only [List.append_nil] at h3 ⊢
              simp [create_or_update_product, hs, h3, applyUpdate_newProduct]
  | false =>
      cases h2 : replaceFirst d (nbbPredB o) (applyUpdate · o) with
      | some d' =>
          obtain ⟨l1, r, l2, hd, hd', hr, hl1⟩ := replaceFirst_eq_some h2
          subst hd hd'
          have e1 : create_or_update_product (l1 ++ r :: l2) o =
              l1 ++ applyUpdate r o :: l2 := by
            simp [create_or_update_product, hs, h2]
          have h3 : replaceFirst (l1 ++ applyUpdate r o :: l2) (nbbPredB o)
              (applyUpdate · o) =
              some (l1 ++ applyUpdate (applyUpdate r o) o :: l2) :=
            replaceFirst_of_split l1 l2 hl1 (nbbPredB_applyUpdate r o hr)
          rw [e1]
          simp [create_or_update_product, hs, h3, applyUpdate_applyUpdate]
      | none =>
          have hall : ∀ x ∈ d, nbbPredB o x = false := replaceFirst_eq_none.mp h2
          have e1 : create_or_update_product d o = d ++ [newProduct o] :=
            create_of_no_match d o (fun hc => by rw [hs] at hc; cases hc) h2
          have h3 : replaceFirst (d ++ newProduct o :: []) (nbbPredB o)
              (applyUpdate · o) =
              some (d ++ applyUpdate (newProduct o) o :: []) :=
            replaceFirst_of_split d [] hall (nbbPredB_newProduct o)
          rw [e1]
          simp only [List.append_nil] at h3 ⊢
          simp [create_or_update_product, hs, h3, applyUpdate_newProduct]

/-- C2: replaying an observation is idempotent — one run of
`create_or_update_product` on its own output is a no-op (so a repeat
changes nothing and adds no row), and replaying an observation whose
identity key matches nothing N ≥ 1 times leaves the table with exactly one
row for that identity key, the state after the first run. -/
theorem C2_resolver_replay_idempotent :
    (∀ (d : List DBProduct) (o : ProductCreate),
        create_or_update_product (create_or_update_product d o) o =
          create_or_update_product d o) ∧
    (∀ (db : List DBProduct) (obs : ProductCreate) (n : Nat), 1 ≤ n →
        ((pdGet obs.api_product_id).isSome = true →
          replaceFirst db (apiPredB (pdGet obs.api_product_id)) (applyUpdate · obs) = none) →
        replaceFirst db (nbbPredB obs) (applyUpdate · obs) = none →
        (fun d => create_or_update_product d obs)^[n] db =
            create_or_update_product db obs ∧
          ((fun d => create_or_update_product d obs)^[n] db).countP (identityPredB obs) = 1) := by
  refine ⟨create_step_idem, ?_⟩
  intro db obs n hn hApi hNbb
  have hfix : ∀ m, (fun d => create_or_update_product d obs)^[m + 1] db =
      create_or_update_product db obs := by
    intro m
    induction m with
    | zero => simp
    | succ k ih =>
        rw [Function.iterate_succ_apply', ih, create_step_idem]
  obtain ⟨m, rfl⟩ : ∃ m, n = m + 1 := ⟨n - 1, (Nat.succ_pred_eq_of_pos hn).symm⟩
  refine ⟨hfix m, ?_⟩
  rw [hfix m, create_of_no_match db obs hApi hNbb, List.countP_append]
  have hzero : db.countP (identityPredB obs) = 0 := by
    rw [List.countP_eq_zero]
    intro a ha
    cases hs : (pdGet obs.api_product_id).isSome with
    | true =>
        simp only [identityPredB, hs, if_true]
        simp [replaceFirst_eq_none.mp (hApi hs) a ha]
    | false =>
        simp only [identityPredB, hs, Bool.false_eq_true, if_false]
        simp [replaceFirst_eq_none.mp hNbb a ha]
  have hone : [newProduct obs].countP (identityPredB obs) = 1 := by
    cases hs : (pdGet obs.api_product_id).isSome with
    | true => simp [List.countP, List.countP.go, identityPredB, hs, apiPredB_newProduct]
    | false => simp [List.countP, List.countP.go, identityPredB, hs, nbbPredB_newProduct]
  rw [hzero, hone]

/-- C2 witness: replaying `{name: "Milk", api_product_id: 7}` three times
into an empty table yields exactly one row for that identity key. -/
theorem C2_witness :
    ((1 : Nat) ≤ 3) ∧
    ((fun d => create_or_update_product d
        { name := "Milk", api_product_id := some (some 7) })^[3] [] =
      create_or_update_product [] { name := "Milk", api_product_id := some (some 7) }) ∧
    ((fun d => create_or_update_product d
        { name := "Milk", api_product_id := some (some 7) })^[3] []).countP
      (identityPredB { name := "Milk", api_product_id := some (some 7) }) = 1 :=
  ⟨by decide,
   ((C2_resolver_replay_idempotent.2 []
      { name := "Milk", api_product_id := some (some 7) } 3 (by decide)
      (fun _ => by decide) (by decide)).1),
   ((C2_resolver_replay_idempotent.2 []
      { name := "Milk", api_product_id := some (some 7) } 3 (by decide)
      (fun _ => by decide) (by decide)).2)⟩

/-! ## Claim C3 -/

/-- C3: on a match, every field the observation provides overwrites the
matched row and absent fields are untouched; the Resolver either appends
one freshly populated row (allow-listed fields only, everything else NULL)
or rewrites exactly one existing row in place; and the Milk scenario:
`{external_id 7, name "Milk"}` then `{external_id 7, name "Milk 1L",
barcode "123"}` ends with exactly one row, named "Milk 1L" with barcode
"123". -/
theorem C3_resolver_overwrite_semantics :
    (∀ (p : DBProduct) (obs : ProductCreate),
        (applyUpdate p obs).name = some obs.name ∧
        (∀ v, obs.brand = some v → (applyUpdate p obs).brand = v) ∧
        (obs.brand = none → (applyUpdate p obs).brand = p.brand) ∧
        (∀ v, obs.api_product_id = some v → (applyUpdate p obs).api_product_id = v) ∧
        (obs.api_product_id = none →
          (applyUpdate p obs).api_product_id = p.api_product_id) ∧
        (∀ v, obs.bar_code = some v → (applyUpdate p obs).bar_code = v) ∧
        (obs.bar_code = none → (applyUpdate p obs).bar_code = p.bar_code) ∧
        (∀ v, obs.image_url = some v → (applyUpdate p obs).image_url = v) ∧
        (obs.image_url = none → (applyUpdate p obs).image_url = p.image_url) ∧
        (∀ v, obs.subcategory_id = some v → (applyUpdate p obs).subcategory_id = v) ∧
        (obs.subcategory_id = none →
          (applyUpdate p obs).subcategory_id = p.subcategory_id)) ∧
    (∀ (obs : ProductCreate),
        (newProduct obs).name = some obs.name ∧
        (newProduct obs).brand = pdGet obs.brand ∧
        (newProduct obs).api_product_id = pdGet obs.api_product_id ∧
        (newProduct obs).bar_code = pdGet obs.bar_code ∧
        (newProduct obs).image_url = pdGet obs.image_url ∧
        (newProduct obs).subcategory_id = pdGet obs.subcategory_id) ∧
    (∀ (db : List DBProduct) (obs : ProductCreate),
        create_or_update_product db obs = db ++ [newProduct obs] ∨
        ∃ l1 r l2, db = l1 ++ r :: l2 ∧
          create_or_update_product db obs = l1 ++ applyUpdate r obs :: l2) ∧
    (create_or_update_product
        (create_or_update_product [] { name := "Milk", api_product_id := some (some 7) })
        { name := "Milk 1L", api_product_id := some (some 7),
          bar_code := some (some "123") } =
      [{ name := some "Milk 1L", api_product_id := some 7, bar_code := some "123" }]) := by
  refine ⟨?_, ?_, ?_, ?_⟩
  · intro p obs
    refine ⟨rfl, ?_, ?_, ?_, ?_, ?_, ?_, ?_, ?_, ?_, ?_⟩ <;>
      first
        | (intro v hv; simp [applyUpdate, hv])
        | (intro hv; simp [applyUpdate, hv])
  · intro obs
    exact ⟨rfl, rfl, rfl, rfl, rfl, rfl⟩
  · intro db obs
    cases hs : (pdGet obs.api_product_id).isSome with
    | true =>
        cases h1 : replaceFirst db (apiPredB (pdGet obs.api_product_id))
            (applyUpdate · obs) with
        | some d' =>
            obtain ⟨l1, r, l2, hd, hd', hr, hl1⟩ := replaceFirst_eq_some h1
            right
            exact ⟨l1, r, l2, hd, by rw [hd]; subst hd; simp [create_or_update_product, hs, h1, hd']⟩
        | none =>
            cases h2 : replaceFirst db (nbbPredB obs) (applyUpdate · obs) with
            | some d' =>
                obtain ⟨l1, r, l2, hd, hd', hr, hl1⟩ := replaceFirst_eq_some h2
                right
                exact ⟨l1, r, l2, hd, by subst hd; simp [create_or_update_product, hs, h1, h2, hd']⟩
            | none => exact Or.inl (create_of_no_match db obs (fun _ => h1) h2)
    | false =>
        cases h2 : replaceFirst db (nbbPredB obs) (applyUpdate · obs) with
        | some d' =>
            obtain ⟨l1, r, l2, hd, hd', hr, hl1⟩ := replaceFirst_eq_some h2
            right
            exact ⟨l1, r, l2, hd, by subst hd; simp [create_or_update_product, hs, h2, hd']⟩
        | none =>
            exact Or.inl (create_of_no_match db obs (fun hc => by rw [hs] at hc; cases hc) h2)
  · decide

/-- C3 witness: the per-field hypotheses of the overwrite clauses
discharged on a concrete row and observation. -/
theorem C3_witness :
    (({ name := "B", brand := some (some "Acme") } : ProductCreate).brand =
        some (some "Acme")) ∧
    (applyUpdate { name := some "A", bar_code := some "999" }
        { name := "B", brand := some (some "Acme") }).brand = some "Acme" ∧
    (({ name := "B", brand := some (some "Acme") } : ProductCreate).bar_code = none) ∧
    (applyUpdate { name := some "A", bar_code := some "999" }
        { name := "B", brand := some (some "Acme") }).bar_code = some "999" :=
  ⟨rfl,
   (C3_resolver_overwrite_semantics.1 { name := some "A", bar_code := some "999" }
      { name := "B", brand := some (some "Acme") }).2.1 (some "Acme") rfl,
   rfl,
   (C3_resolver_overwrite_semantics.1 { name := some "A", bar_code := some "999" }
      { name := "B", brand := some (some "Acme") }).2.2.2.2.2.2.1 rfl⟩

/-! ## Claim C4 -/

/-- C4 counterexample: a product whose `previousPrice` (10) is *not* lower
than its regular price (5) — so the claim's condition is false, there
being no sale window either — is nevertheless marked on sale by
`parse_product`. -/
theorem C4_counterexample :
    (parse_product (.obj [("id", .num 1), ("name", .str "X"), ("price", .num 5),
        ("previousPrice", .num 10)])).map (fun r => r.isOnSale) = some "True" ∧
    ¬((10 : Rat) < 5) := by
  constructor
  · rfl
  · decide

/-- C4 (amended): both price parsers compute the on-sale flag as the
truthiness of the `previousPrice` field alone — true exactly when
`previousPrice` is present and truthy (non-zero, non-empty, non-null) —
with no comparison against the regular price and no sale-window logic. -/
theorem C4_on_sale_is_truthiness :
    (∀ (product : Json) (r : SparParsed), parse_product product = some r →
        (r.isOnSale = "True" ↔
          Json.pyTruthy (Json.pyGetD product "previousPrice" .null) = true)) ∧
    (∀ (p category : Json) (sub : Option Json) (r : CollectedProduct),
        collectRecord p category sub = some r →
        r.isOnSale = Json.pyTruthy (Json.pyGetD p "previousPrice" .null)) := by
  constructor
  · intro product r h
    cases product with
    | null => simp [parse_product] at h
    | bool b => simp [parse_product] at h
    | num q => simp [parse_product] at h
    | str s => simp [parse_product] at h
    | arr xs => simp [parse_product] at h
    | obj fs =>
        simp only [parse_product] at h
        split at h
        · injection h with h'
          subst h'
          simp only [Json.pyGetD]
          cases hprev : Json.pyTruthy ((Json.lookup fs "previousPrice").getD .null) <;>
            simp [hprev]
        · exact absurd h (by simp)
  · intro p category sub r h
    cases p with
    | null => simp [collectRecord] at h
    | bool b => simp [collectRecord] at h
    | num q => simp [collectRecord] at h
    | str s => simp [collectRecord] at h
    | arr xs => simp [collectRecord] at h
    | obj pfs =>
        cases category with
        | null => simp [collectRecord] at h
        | bool b => simp [collectRecord] at h
        | num q => simp [collectRecord] at h
        | str s => simp [collectRecord] at h
        | arr xs => simp [collectRecord] at h
        | obj cfs =>
            simp only [collectRecord] at h
            split at h
            · exact absurd h (by simp)
            · injection h with h'
              subst h'
              rfl

/-- C4 witness: the amended statement applied to a concrete on-sale
product record. -/
theorem C4_witness :
    parse_product (.obj [("id", .str "1"), ("name", .str "Y"), ("price", .str "5"),
        ("previousPrice", .str "8")]) =
      some { id := "1", name := "Y", price := "5", previousPrice := "8",
             isOnSale := "True", imageUrl := .str "", barcode := .str "" } ∧
    (({ id := "1", name := "Y", price := "5", previousPrice := "8",
        isOnSale := "True", imageUrl := .str "", barcode := .str "" } :
          SparParsed).isOnSale = "True" ↔
      Json.pyTruthy (Json.pyGetD (.obj [("id", .str "1"), ("name", .str "Y"),
        ("price", .str "5"), ("previousPrice", .str "8")]) "previousPrice" .null) = true) :=
  ⟨by rfl,
   C4_on_sale_is_truthiness.1
     (.obj [("id", .str "1"), ("name", .str "Y"), ("price", .str "5"),
        ("previousPrice", .str "8")])
     { id := "1", name := "Y", price := "5", previousPrice := "8",
       isOnSale := "True", imageUrl := .str "", barcode := .str "" }
     (by rfl)⟩

/-! ## Claim C5 -/

theorem sinkExtends_refl (P : Row → Prop) (s : RowSink) : SinkExtends P s s :=
  ⟨⟨[], by simp, by simp⟩, fun _ hk => hk⟩

theorem sinkExtends_trans {P : Row → Prop} {s t u : RowSink}
    (h1 : SinkExtends P s t) (h2 : SinkExtends P t u) : SinkExtends P s u := by
  obtain ⟨⟨l1, hl1, hp1⟩, hs1⟩ := h1
  obtain ⟨⟨l2, hl2, hp2⟩, hs2⟩ := h2
  refine ⟨⟨l1 ++ l2, by rw [hl2, hl1, List.append_assoc], ?_⟩, fun k hk => hs2 k (hs1 k hk)⟩
  intro r hr
  rcases List.mem_append.mp hr with h | h
  · exact hp1 r h
  · exact hp2 r h

theorem sinkExtends_add {P : Row → Prop} (s : RowSink) (cat sub : Option Json)
    (name image : String) (price : Option Rat)
    (hP : P ⟨strOrEmpty cat, strOrEmpty sub, name, image, price⟩) :
    SinkExtends P s (s.add cat sub name image price) := by
  unfold RowSink.add
  by_cases h : (⟨strOrEmpty cat, strOrEmpty sub, name, image, price⟩ : Row) ∈ s.seen
  · simp only [h, if_true]
    exact sinkExtends_refl P s
  · simp only [h, if_false]
    exact ⟨⟨[⟨strOrEmpty cat, strOrEmpty sub, name, image, price⟩], rfl,
      by simpa using hP⟩, fun k hk => by simp [hk]⟩

theorem foldl_sinkExtends {α : Type} {P : Row → Prop} {g : RowSink → α → RowSink}
    (xs : List α) (s : RowSink)
    (h : ∀ t (x : α), x ∈ xs → SinkExtends P t (g t x)) :
    SinkExtends P s (xs.foldl g s) := by
  induction xs generalizing s with
  | nil => exact sinkExtends_refl P s
  | cons x rest ih =>
      exact sinkExtends_trans (h s x (by simp))
        (ih (g s x) (fun t y hy => h t y (by simp [hy])))

/-- Every traversal only appends rows, each coming from a context that
passed the emission gate. -/
theorem extractAux_extends (fuel : Nat) :
    ∀ (node : Json) (ctx : Ctx) (sink : RowSink),
      SinkExtends (fun r => ∃ c, emitCond c = true ∧ r = mkRow c) sink
        (extractAux fuel node ctx sink) := by
  induction fuel with
  | zero => intro node ctx sink; exact sinkExtends_refl _ sink
  | succ fuel ih =>
      intro node ctx sink
      cases node with
      | obj fields =>
          simp only [extractAux]
          refine sinkExtends_trans ?_
            (foldl_sinkExtends fields _ (fun t x _ => ih x.2 (updateCtx fields ctx) t))
          by_cases h : emitCond (updateCtx fields ctx) = true
          · simp only [h, if_true]
            exact sinkExtends_add sink _ _ _ _ _ ⟨updateCtx fields ctx, h, rfl⟩
          · simp only [h, if_false]
            exact sinkExtends_refl _ sink
      | arr xs =>
          simp only [extractAux]
          exact foldl_sinkExtends xs sink (fun t x _ => ih x ctx t)
      | null => exact sinkExtends_refl _ sink
      | bool b => exact sinkExtends_refl _ sink
      | num q => exact sinkExtends_refl _ sink
      | str s => exact sinkExtends_refl _ sink

theorem foldl_fixed {α β : Type} {g : β → α → β} (xs : List α) (s : β)
    (h : ∀ t (x : α), x ∈ xs → g t x = t) : xs.foldl g s = s := by
  induction xs generalizing s with
  | nil => rfl
  | cons x rest ih =>
      rw [List.foldl_cons, h s x (by simp)]
      exact ih s (fun t y hy => h t y (by simp [hy]))

/-- C5: the Tree Extractor emits a record at a map node exactly through the
gate `name truthy ∧ (price parses ∨ image truthy)` — every appended row
originates from a context passing the gate (so no record ever lacks a
truthy name, and a gate-passing map node always registers its row);
sequence nodes only recurse, emitting nothing themselves; and a tree with
no truthy name anywhere (prices and images notwithstanding) leaves the
sink untouched. -/
theorem C5_extractor_emission_gate :
    (∀ fuel (node : Json) (ctx : Ctx) (sink : RowSink),
        SinkExtends (fun r => ∃ c, emitCond c = true ∧ r = mkRow c) sink
          (extractAux fuel node ctx sink)) ∧
    (∀ c : Ctx, emitCond c = true → Json.optTruthy c.name = true) ∧
    (∀ fuel (fields : List (String × Json)) (ctx : Ctx) (sink : RowSink),
        emitCond (updateCtx fields ctx) = true →
        mkRow (updateCtx fields ctx) ∈ (extractAux (fuel + 1) (.obj fields) ctx sink).seen) ∧
    (∀ fuel (xs : List Json) (ctx : Ctx) (sink : RowSink),
        extractAux (fuel + 1) (.arr xs) ctx sink =
          xs.foldl (fun s v => extractAux fuel v ctx s) sink) ∧
    (∀ fuel (node : Json) (ctx : Ctx) (sink : RowSink),
        nameDeadB ctx.name = true → nameFreeAux fuel node = true →
        extractAux fuel node ctx sink = sink) := by
  refine ⟨extractAux_extends, ?_, ?_, ?_, ?_⟩
  · intro c h
    simp only [emitCond, Bool.and_eq_true] at h
    exact h.1
  · intro fuel fields ctx sink h
    simp only [extractAux, h, if_true]
    have hmem : mkRow (updateCtx fields ctx) ∈
        (sink.add (updateCtx fields ctx).cat (updateCtx fields ctx).sub
          (pyStrip (Json.pyStr ((updateCtx fields ctx).name.getD .null)))
          (pyStrip (Json.pyStr (Json.pyOrEmptyStr (updateCtx fields ctx).image)))
          (as_priceOpt (updateCtx fields ctx).price)).seen := by
      unfold RowSink.add mkRow
      by_cases hk : (⟨strOrEmpty (updateCtx fields ctx).cat,
          strOrEmpty (updateCtx fields ctx).sub,
          pyStrip (Json.pyStr ((updateCtx fields ctx).name.getD .null)),
          pyStrip (Json.pyStr (Json.pyOrEmptyStr (updateCtx fields ctx).image)),
          as_priceOpt (updateCtx fields ctx).price⟩ : Row) ∈ sink.seen
      · simp [hk]
      · simp [hk]
    exact (foldl_sinkExtends fields _
      (fun t x _ => extractAux_extends fuel x.2 (updateCtx fields ctx) t)).2 _ hmem
  · intro fuel xs ctx sink
    rfl
  · intro fuel
    induction fuel with
    | zero => intro node ctx sink _ _; rfl
    | succ fuel ih =>
        intro node ctx sink hdead hfree
        cases node with
        | obj fields =>
            simp only [nameFreeAux, Bool.and_eq_true, List.all_eq_true] at hfree
            have hdead' : nameDeadB (updateCtx fields ctx).name = true := by
              simp only [nameDeadB, updateCtx, Bool.not_eq_true'] at hdead ⊢
              cases hfn : first_non_empty fields NAME_KEYS with
              | none => simpa [Option.or, hfn] using hdead
              | some v =>
                  have := hfree.1
                  rw [hfn] at this
                  simpa [Option.or, hfn] using by
                    simpa [Json.optTruthy, Bool.not_eq_true'] using this
            have hemit : emitCond (updateCtx fields ctx) = false := by
              cases he : emitCond (updateCtx fields ctx) with
              | false => rfl
              | true =>
                  have h12 := he
                  simp only [emitCond, Bool.and_eq_true] at h12
                  rw [nameDeadB, h12.1] at hdead'
                  cases hdead'
            simp only [extractAux, hemit, Bool.false_eq_true, if_false]
            exact foldl_fixed fields sink
              (fun t x hx => ih x.2 (updateCtx fields ctx) t hdead' (hfree.2 x hx))
        | arr xs =>
            simp only [nameFreeAux, List.all_eq_true] at hfree
            simp only [extractAux]
            exact foldl_fixed xs sink (fun t x hx => ih x ctx t hdead (hfree x hx))
        | null => rfl
        | bool b => rfl
        | num q => rfl
        | str s => rfl

/-- C5 witness: a tree holding a price and an image but no name emits
nothing; a map node with a truthy name and a parseable price registers its
row. -/
theorem C5_witness :
    nameDeadB ({} : Ctx).name = true ∧
    nameFreeAux 21 (.obj [("price", .str "9.99"), ("image", .str "i.png")]) = true ∧
    extractAux 21 (.obj [("price", .str "9.99"), ("image", .str "i.png")]) {} {} = {} ∧
    emitCond (updateCtx [("name", .str "A"), ("price", .str "3")] {}) = true ∧
    mkRow (updateCtx [("name", .str "A"), ("price", .str "3")] {}) ∈
      (extractAux 1 (.obj [("name", .str "A"), ("price", .str "3")]) {} {}).seen :=
  ⟨by decide, by decide,
   C5_extractor_emission_gate.2.2.2.2 21 (.obj [("price", .str "9.99"),
     ("image", .str "i.png")]) {} {} (by decide) (by decide),
   by decide,
   C5_extractor_emission_gate.2.2.1 0 [("name", .str "A"), ("price", .str "3")]
     {} {} (by decide)⟩

/-! ## Claim C6 -/

/-- C6: slot values found at a map node override the inherited context and
are passed down (absent slots inherit); per-slot aliases are scanned in a
fixed priority order where the first present, non-empty key wins and
empty/missing keys fall through; and the scenario — the tree
`\x7b"category": "Dairy", "items": [\x7b"name": "Cheese", "price": "5.99"\x7d]\x7d`
yields exactly one record, `(Dairy, Cheese, 5.99)`. -/
theorem C6_context_merge :
    (∀ (fields : List (String × Json)) (ctx : Ctx),
        (∀ v, first_non_empty fields NAME_KEYS = some v →
            (updateCtx fields ctx).name = some v) ∧
        (first_non_empty fields NAME_KEYS = none →
            (updateCtx fields ctx).name = ctx.name) ∧
        (∀ v, first_non_empty fields PRICE_KEYS = some v →
            (updateCtx fields ctx).price = some v) ∧
        (first_non_empty fields PRICE_KEYS = none →
            (updateCtx fields ctx).price = ctx.price) ∧
        (∀ v, first_non_empty fields IMAGE_KEYS = some v →
            (updateCtx fields ctx).image = some v) ∧
        (first_non_empty fields IMAGE_KEYS = none →
            (updateCtx fields ctx).image = ctx.image) ∧
        (∀ v, first_non_empty fields CATEGORY_KEYS = some v →
            (updateCtx fields ctx).cat = some v) ∧
        (first_non_empty fields CATEGORY_KEYS = none →
            (updateCtx fields ctx).cat = ctx.cat) ∧
        (∀ v, first_non_empty fields SUBCATEGORY_KEYS = some v →
            (updateCtx fields ctx).sub = some v) ∧
        (first_non_empty fields SUBCATEGORY_KEYS = none →
            (updateCtx fields ctx).sub = ctx.sub)) ∧
    (∀ (fields : List (String × Json)) (k : String) (ks : List String) (v : Json),
        Json.lookup fields k = some v → nonEmptyVal v = true →
        first_non_empty fields (k :: ks) = some v) ∧
    (∀ (fields : List (String × Json)) (k : String) (ks : List String),
        (Json.lookup fields k = none ∨
          ∃ v, Json.lookup fields k = some v ∧ nonEmptyVal v = false) →
        first_non_empty fields (k :: ks) = first_non_empty fields ks) ∧
    ((extract_items_merged (.obj [("category", .str "Dairy"),
        ("items", .arr [.obj [("name", .str "Cheese"), ("price", .str "5.99")]])])
        {} {}).rows = [⟨"Dairy", "", "Cheese", "", as_price (.str "5.99")⟩] ∧
      as_price (.str "5.99") = some (5.99 : Rat)) := by
  refine ⟨?_, ?_, ?_, ?_, ?_⟩
  · intro fields ctx
    refine ⟨?_, ?_, ?_, ?_, ?_, ?_, ?_, ?_, ?_, ?_⟩ <;>
      first
        | (intro v h; simp [updateCtx, h])
        | (intro h; simp [updateCtx, h])
  · intro fields k ks v h hne
    simp [first_non_empty, h, hne]
  · intro fields k ks h
    rcases h with h | ⟨v, hv, hne⟩
    · simp [first_non_empty, h]
    · simp [first_non_empty, hv, hne]
  · rfl
  · have h1 : as_price (.str "5.99") = some (groupVal ['5'] ['9', '9']) := rfl
    have h2 : digitsNat ['5'] = 5 := by decide
    have h3 : digitsNat ['9', '9'] = 99 := by decide
    rw [h1, groupVal, h2, h3]
    norm_num

/-- C6 witness: the first alias in priority order wins on a concrete node. -/
theorem C6_witness :
    Json.lookup [("name", .str "N")] "name" = some (.str "N") ∧
    nonEmptyVal (.str "N") = true ∧
    first_non_empty [("name", .str "N")] ("name" :: ["title"]) = some (.str "N") :=
  ⟨rfl, rfl, C6_context_merge.2.1 [("name", .str "N")] "name" ["title"] (.str "N") rfl rfl⟩

/-! ## Claim C7 -/

theorem takeWhile_append_of_all {α : Type} {p : α → Bool} (l1 : List α) {x : α}
    (l2 : List α) (h1 : ∀ c ∈ l1, p c = true) (h2 : p x = false) :
    (l1 ++ x :: l2).takeWhile p = l1 ∧ (l1 ++ x :: l2).dropWhile p = x :: l2 := by
  induction l1 with
  | nil => simp [List.takeWhile, List.dropWhile, h2]
  | cons c cs ih =>
      have hc : p c = true := h1 c (by simp)
      have ih' := ih (fun y hy => h1 y (by simp [hy]))
      simp [List.takeWhile, List.dropWhile, hc, ih'.1, ih'.2]

theorem scanNum_append_nondigit (pre rest : List Char)
    (h : ∀ c ∈ pre, c.isDigit = false) :
    scanNum (pre ++ rest) = scanNum rest := by
  induction pre with
  | nil => rfl
  | cons c cs ih =>
      have hc : c.isDigit = false := h c (by simp)
      simp [scanNum, hc, ih (fun y hy => h y (by simp [hy]))]

theorem numAt_format1 (ip : List Char) (sep d1 : Char) (suf : List Char)
    (hipd : ∀ c ∈ ip, c.isDigit = true) (hsep : sep = ',' ∨ sep = '.')
    (hd1 : d1.isDigit = true)
    (hsuf : suf = [] ∨ ∃ c suf', suf = c :: suf' ∧ c.isDigit = false) :
    numAt (ip ++ sep :: d1 :: suf) = groupVal ip [d1] := by
  have hsepd : sep.isDigit = false := by rcases hsep with rfl | rfl <;> decide
  obtain ⟨htw, hdw⟩ := takeWhile_append_of_all ip (d1 :: suf) hipd hsepd
  simp only [numAt]
  rw [hdw, htw]
  rcases hsuf with rfl | ⟨c, suf', rfl, hc⟩
  · rcases hsep with rfl | rfl <;> simp [hd1]
  · rcases hsep with rfl | rfl <;> simp [hd1, hc]

theorem numAt_format2 (ip : List Char) (sep d1 d2 : Char) (suf : List Char)
    (hipd : ∀ c ∈ ip, c.isDigit = true) (hsep : sep = ',' ∨ sep = '.')
    (hd1 : d1.isDigit = true) (hd2 : d2.isDigit = true) :
    numAt (ip ++ sep :: d1 :: d2 :: suf) = groupVal ip [d1, d2] := by
  have hsepd : sep.isDigit = false := by rcases hsep with rfl | rfl <;> decide
  obtain ⟨htw, hdw⟩ := takeWhile_append_of_all ip (d1 :: d2 :: suf) hipd hsepd
  simp only [numAt]
  rw [hdw, htw]
  rcases hsep with rfl | rfl <;> simp [hd1, hd2]

theorem scanNum_eq_none (cs : List Char) :
    scanNum cs = none ↔ ∀ c ∈ cs, c.isDigit = false := by
  induction cs with
  | nil => simp [scanNum]
  | cons c rest ih =>
      cases hc : c.isDigit with
      | true => simp [scanNum, hc]
      | false => simp [scanNum, hc, ih]

/-- C7: the price parser reads a number written with either comma or dot
as the decimal separator (one or two decimals) through any non-digit
prefix/suffix (currency symbols included) and returns exactly the denoted
value; `"12,50 ₾"` parses to `12.50`; and a value with no digits at all —
or a `None` — yields absence, never zero. -/
theorem C7_as_price_parsing :
    (∀ (pre ip : List Char) (sep : Char) (fr suf : List Char),
        (∀ c ∈ pre, c.isDigit = false) →
        ip ≠ [] → (∀ c ∈ ip, c.isDigit = true) →
        (sep = ',' ∨ sep = '.') →
        fr ≠ [] → fr.length ≤ 2 → (∀ c ∈ fr, c.isDigit = true) →
        (suf = [] ∨ ∃ c suf', suf = c :: suf' ∧ c.isDigit = false) →
        as_price (.str (String.mk (pre ++ ip ++ sep :: (fr ++ suf)))) =
          some (groupVal ip fr)) ∧
    (as_price (.str "12,50 ₾") = some (12.50 : Rat)) ∧
    (∀ cs : List Char,
        as_price (.str (String.mk cs)) = none ↔ ∀ c ∈ cs, c.isDigit = false) ∧
    (as_price .null = none) := by
  refine ⟨?_, ?_, ?_, rfl⟩
  · intro pre ip sep fr suf hpre hip hipd hsep hfr hfr2 hfrd hsuf
    show scanNum (String.mk (pre ++ ip ++ sep :: (fr ++ suf))).toList =
      some (groupVal ip fr)
    have h0 : (String.mk (pre ++ ip ++ sep :: (fr ++ suf))).toList =
        pre ++ (ip ++ sep :: (fr ++ suf)) := by simp
    rw [h0, scanNum_append_nondigit pre _ hpre]
    rcases ip with _ | ⟨c, ip'⟩
    · exact absurd rfl hip
    have hc : c.isDigit = true := hipd c (by simp)
    show scanNum (c :: (ip' ++ sep :: (fr ++ suf))) = _
    simp only [scanNum, hc, if_true]
    rcases fr with _ | ⟨d1, fr'⟩
    · exact absurd rfl hfr
    rcases fr' with _ | ⟨d2, fr''⟩
    · have h1 := numAt_format1 (c :: ip') sep d1 suf hipd hsep
        (hfrd d1 (by simp)) hsuf
      show some (numAt ((c :: ip') ++ sep :: d1 :: suf)) = _
      rw [h1]
    · have hfr'' : fr'' = [] := by
        cases fr'' with
        | nil => rfl
        | cons a b => simp at hfr2
      subst hfr''
      have h2 := numAt_format2 (c :: ip') sep d1 d2 suf hipd hsep
        (hfrd d1 (by simp)) (hfrd d2 (by simp))
      show some (numAt ((c :: ip') ++ sep :: d1 :: d2 :: suf)) = _
      rw [h2]
  · have h1 : as_price (.str "12,50 ₾") = some (groupVal ['1', '2'] ['5', '0']) := rfl
    have h2 : digitsNat ['1', '2'] = 12 := by decide
    have h3 : digitsNat ['5', '0'] = 50 := by decide
    rw [h1, groupVal, h2, h3]
    norm_num
  · intro cs
    show scanNum (String.mk cs).toList = none ↔ _
    exact scanNum_eq_none cs

/-- C7 witness: the format theorem applied to `"₾ 12,50 x"`. -/
theorem C7_witness :
    ((∀ c ∈ ['₾', ' '], c.isDigit = false) ∧ (∀ c ∈ ['1', '2'], c.isDigit = true) ∧
      (∀ c ∈ ['5', '0'], c.isDigit = true)) ∧
    as_price (.str (String.mk (['₾', ' '] ++ ['1', '2'] ++ ',' :: (['5', '0'] ++ [' ', 'x'])))) =
      some (groupVal ['1', '2'] ['5', '0']) :=
  ⟨⟨by decide, by decide, by decide⟩,
   C7_as_price_parsing.1 ['₾', ' '] ['1', '2'] ',' ['5', '0'] [' ', 'x']
     (by decide) (by decide) (by decide) (Or.inl rfl) (by decide) (by decide)
     (by decide) (Or.inr ⟨' ', ['x'], rfl, by decide⟩)⟩

/-! ## Claim C8 -/

/-- C8: the paginated loop stops with what it has when the fetch yields no
payload or the payload's product sequence is missing/empty, and otherwise
continues to the next page exactly when at least one of the continuation
fields `hasNextPage`, `pagination.hasNext`, `hasNext` is truthy (their
disjunction `anyNextB`), prepending the page's parsed products. -/
theorem C8_pagination_continuation :
    (∀ (fetch : Nat → Option Json) (fuel page : Nat),
        fetch page = none → fetch_all_products fetch (fuel + 1) page = some []) ∧
    (∀ (fetch : Nat → Option Json) (fuel page : Nat) (fs : List (String × Json)),
        fetch page = some (.obj fs) →
        Json.pyTruthy ((Json.lookup fs "products").getD (.arr [])) = false →
        fetch_all_products fetch (fuel + 1) page = some []) ∧
    (∀ (fetch : Nat → Option Json) (fuel page : Nat) (fs : List (String × Json))
        (xs : List Json) (pfs : List (String × Json)),
        fetch page = some (.obj fs) →
        Json.lookup fs "products" = some (.arr xs) → xs ≠ [] →
        (Json.lookup fs "pagination").getD (.obj []) = .obj pfs →
        ((anyNextB fs pfs = true →
            fetch_all_products fetch (fuel + 1) page =
              (fetch_all_products fetch fuel (page + 1)).map
                (xs.filterMap parse_product ++ ·)) ∧
          (anyNextB fs pfs = false →
            fetch_all_products fetch (fuel + 1) page =
              some (xs.filterMap parse_product)))) := by
  refine ⟨?_, ?_, ?_⟩
  · intro fetch fuel page h
    simp [fetch_all_products, h]
  · intro fetch fuel page fs hf hp
    by_cases hfs : fs = []
    · subst hfs
      simp [fetch_all_products, hf, Json.pyTruthy]
    · have htr : Json.pyTruthy (.obj fs) = true := by
        cases fs with
        | nil => exact absurd rfl hfs
        | cons a l => simp [Json.pyTruthy]
      simp [fetch_all_products, hf, htr, hp]
  · intro fetch fuel page fs xs pfs hf hprod hxs hpag
    have hfs : fs ≠ [] := by
      intro h
      rw [h] at hprod
      simp [Json.lookup] at hprod
    have htr : Json.pyTruthy (.obj fs) = true := by
      cases fs with
      | nil => exact absurd rfl hfs
      | cons a l => simp [Json.pyTruthy]
    have hxst : Json.pyTruthy (.arr xs) = true := by
      cases xs with
      | nil => exact absurd rfl hxs
      | cons a l => simp [Json.pyTruthy]
    constructor
    · intro hany
      cases hn1 : Json.pyTruthy ((Json.lookup fs "hasNextPage").getD .null) with
      | true =>
          simp only [fetch_all_products, hf, htr, Bool.not_true, Bool.false_eq_true,
            if_false, hprod, Option.getD_some, hxst, pyIter, hn1, if_true]
          cases fetch_all_products fetch fuel (page + 1) <;> simp
      | false =>
          simp only [anyNextB, hn1, Bool.false_or] at hany
          cases hn2 : Json.pyTruthy ((Json.lookup pfs "hasNext").getD .null) with
          | true =>
              simp only [fetch_all_products, hf, htr, Bool.not_true, Bool.false_eq_true,
                if_false, hprod, Option.getD_some, hxst, pyIter, hn1, hpag, hn2, if_true]
              cases fetch_all_products fetch fuel (page + 1) <;> simp
          | false =>
              rw [hn2, Bool.false_or] at hany
              simp only [fetch_all_products, hf, htr, Bool.not_true, Bool.false_eq_true,
                if_false, hprod, Option.getD_some, hxst, pyIter, hn1, hpag, hn2, hany, if_true]
              cases fetch_all_products fetch fuel (page + 1) <;> simp
    · intro hany
      simp only [anyNextB, Bool.or_eq_false_iff] at hany
      obtain ⟨⟨hn1, hn2⟩, hn3⟩ := hany
      simp only [fetch_all_products, hf, htr, Bool.not_true, Bool.false_eq_true,
        if_false, hprod, Option.getD_some, hxst, pyIter, hn1, hpag, hn2, hn3]

/-- C8 witness: a first page with one product and `hasNextPage: true`
continues to page 2, whose fetch fails, ending the run. -/
theorem C8_witness :
    (fun p : Nat => if p = 1 then
        some (Json.obj [("products", Json.arr [Json.obj [("name", Json.str "A")]]),
          ("hasNextPage", Json.bool true)]) else none) 1 =
      some (.obj [("products", .arr [.obj [("name", .str "A")]]),
        ("hasNextPage", .bool true)]) ∧
    Json.lookup [("products", Json.arr [Json.obj [("name", Json.str "A")]]),
        ("hasNextPage", Json.bool true)] "products" =
      some (.arr [.obj [("name", .str "A")]]) ∧
    anyNextB [("products", Json.arr [Json.obj [("name", Json.str "A")]]),
        ("hasNextPage", Json.bool true)] [] = true ∧
    fetch_all_products (fun p : Nat => if p = 1 then
        some (Json.obj [("products", Json.arr [Json.obj [("name", Json.str "A")]]),
          ("hasNextPage", Json.bool true)]) else none) 2 1 =
      (fetch_all_products (fun p : Nat => if p = 1 then
        some (Json.obj [("products", Json.arr [Json.obj [("name", Json.str "A")]]),
          ("hasNextPage", Json.bool true)]) else none) 1 2).map
        (([Json.obj [("name", Json.str "A")]].filterMap parse_product) ++ ·) :=
  ⟨rfl, rfl, rfl,
   ((C8_pagination_continuation.2.2
      (fun p : Nat => if p = 1 then
        some (Json.obj [("products", Json.arr [Json.obj [("name", Json.str "A")]]),
          ("hasNextPage", Json.bool true)]) else none)
      1 1
      [("products", Json.arr [Json.obj [("name", Json.str "A")]]),
        ("hasNextPage", Json.bool true)]
      [Json.obj [("name", Json.str "A")]] []
      rfl rfl (List.cons_ne_nil _ _) rfl).1) rfl⟩

/-! ## Claim C9 -/

theorem getJsonAux_ext (a b : Nat → Option Json) :
    ∀ (k i : Nat), (∀ j, i ≤ j → j < i + k → a j = b j) →
      getJsonAux a k i = getJsonAux b k i := by
  intro k
  induction k with
  | zero => intro i _; rfl
  | succ k ih =>
      intro i h
      have hi : a i = b i := h i (Nat.le_refl i) (by omega)
      simp only [getJsonAux, hi]
      cases b i with
      | some j => rfl
      | none => exact ih (i + 1) (fun j h1 h2 => h j (by omega) (by omega))

theorem getJsonAux_none (a : Nat → Option Json) (h : ∀ i, a i = none) :
    ∀ (k i : Nat), getJsonAux a k i = none := by
  intro k
  induction k with
  | zero => intro i; rfl
  | succ k ih =>
      intro i
      simp only [getJsonAux, h i]
      exact ih (i + 1)

theorem runIngestion_shift (oracle : String → Nat → Option Json) (cats : List String) :
    ∀ r : IngestionReport,
      cats.foldl (fun rep cat =>
        match get_json (oracle cat) MAX_RETRIES with
        | none => { rep with errors := rep.errors ++ [cat] }
        | some jd =>
            { rep with productsSeen := rep.productsSeen + (pageItems jd).length }) r =
      { productsSeen := r.productsSeen + (RunIngestion oracle cats).productsSeen,
        errors := r.errors ++ (RunIngestion oracle cats).errors } := by
  induction cats with
  | nil => intro r; simp [RunIngestion]
  | cons c rest ih =>
      intro r
      simp only [List.foldl_cons]
      rw [ih]
      have h2 : RunIngestion oracle (c :: rest) =
          { productsSeen := ((match get_json (oracle c) MAX_RETRIES with
                | none => ({ errors := [c] } : IngestionReport)
                | some jd =>
                    ({ productsSeen := (pageItems jd).length } : IngestionReport)) :
                  IngestionReport).productsSeen
              + (RunIngestion oracle rest).productsSeen,
            errors := ((match get_json (oracle c) MAX_RETRIES with
                | none => ({ errors := [c] } : IngestionReport)
                | some jd =>
                    ({ productsSeen := (pageItems jd).length } : IngestionReport)) :
                  IngestionReport).errors
              ++ (RunIngestion oracle rest).errors } := by
        cases h : get_json (oracle c) MAX_RETRIES with
        | none =>
            simp only [RunIngestion, List.foldl_cons, h]
            rw [ih]
            simp [RunIngestion]
        | some jd =>
            simp only [RunIngestion, List.foldl_cons, h]
            rw [ih]
            simp [RunIngestion]
      rw [h2]
      cases h : get_json (oracle c) MAX_RETRIES with
      | none => simp [h, List.append_assoc]
      | some jd => simp [h, Nat.add_assoc]

/-- C9: a fetch makes at most `retries` attempts — its outcome depends
only on attempts `1 .. retries` — and `MAX_RETRIES = 3`; when every
attempt fails it returns `None` instead of raising; and (orchestrator
accounting modelled from the spec) a category whose page fetch fails at
the retry bound is recorded in `IngestionReport.errors` while every other
category still contributes its products — the loop is not aborted. -/
theorem C9_retry_bound_and_skip :
    (MAX_RETRIES = 3) ∧
    (∀ (a b : Nat → Option Json) (retries : Nat),
        (∀ i, 1 ≤ i → i ≤ retries → a i = b i) →
        get_json a retries = get_json b retries) ∧
    (∀ (a : Nat → Option Json) (retries : Nat), (∀ i, a i = none) →
        get_json a retries = none) ∧
    (∀ (oracle : String → Nat → Option Json) (l1 l2 : List String) (c : String),
        get_json (oracle c) MAX_RETRIES = none →
        (RunIngestion oracle (l1 ++ c :: l2)).errors =
            (RunIngestion oracle l1).errors ++ c :: (RunIngestion oracle l2).errors ∧
          (RunIngestion oracle (l1 ++ c :: l2)).productsSeen =
            (RunIngestion oracle l1).productsSeen +
              (RunIngestion oracle l2).productsSeen) := by
  refine ⟨rfl, ?_, ?_, ?_⟩
  · intro a b retries h
    exact getJsonAux_ext a b retries 1 (fun j h1 h2 => h j h1 (by omega))
  · intro a retries h
    exact getJsonAux_none a h retries 1
  · intro oracle l1 l2 c h
    have e1 : RunIngestion oracle (l1 ++ c :: l2) =
        (c :: l2).foldl (fun rep cat =>
          match get_json (oracle cat) MAX_RETRIES with
          | none => { rep with errors := rep.errors ++ [cat] }
          | some jd =>
              { rep with productsSeen := rep.productsSeen + (pageItems jd).length })
          (RunIngestion oracle l1) := by
      simp [RunIngestion, List.foldl_append]
    rw [e1]
    simp only [List.foldl_cons, h]
    rw [runIngestion_shift oracle l2]
    simp [List.append_assoc]

/-- C9 witness: a category failing all three attempts is counted in the
errors list while its neighbours still contribute. -/
theorem C9_witness :
    get_json ((fun (c : String) (_ : Nat) => if c = "bad" then none
        else some (Json.obj [("products", Json.arr [Json.obj []])])) "bad")
      MAX_RETRIES = none ∧
    (RunIngestion (fun (c : String) (_ : Nat) => if c = "bad" then none
        else some (Json.obj [("products", Json.arr [Json.obj []])]))
        (["g1"] ++ "bad" :: ["g2"])).errors =
      (RunIngestion (fun (c : String) (_ : Nat) => if c = "bad" then none
        else some (Json.obj [("products", Json.arr [Json.obj []])])) ["g1"]).errors ++
        "bad" :: (RunIngestion (fun (c : String) (_ : Nat) => if c = "bad" then none
          else some (Json.obj [("products", Json.arr [Json.obj []])])) ["g2"]).errors ∧
    (RunIngestion (fun (c : String) (_ : Nat) => if c = "bad" then none
        else some (Json.obj [("products", Json.arr [Json.obj []])]))
        (["g1"] ++ "bad" :: ["g2"])).productsSeen =
      (RunIngestion (fun (c : String) (_ : Nat) => if c = "bad" then none
        else some (Json.obj [("products", Json.arr [Json.obj []])])) ["g1"]).productsSeen +
        (RunIngestion (fun (c : String) (_ : Nat) => if c = "bad" then none
          else some (Json.obj [("products", Json.arr [Json.obj []])])) ["g2"]).productsSeen :=
  ⟨rfl,
   (C9_retry_bound_and_skip.2.2.2 (fun (c : String) (_ : Nat) => if c = "bad" then none
      else some (Json.obj [("products", Json.arr [Json.obj []])]))
      ["g1"] ["g2"] "bad" rfl).1,
   (C9_retry_bound_and_skip.2.2.2 (fun (c : String) (_ : Nat) => if c = "bad" then none
      else some (Json.obj [("products", Json.arr [Json.obj []])]))
      ["g1"] ["g2"] "bad" rfl).2⟩

/-! ## Claim C10 -/

/-- C10: in the HTML catalog import, a card with a name is never dropped
for price reasons — when its price element is missing or its cleaned price
text fails `float(...)`, the price defaults to `0.0` and a `Price` row
with value `0` is still appended for the product — while a card with no
name element is skipped entirely. -/
theorem C10_unparseable_price_zero :
    (∀ (st : ImportState) (storeId : Nat) (pt img : Option String),
        processCard st storeId ⟨none, pt, img⟩ = st) ∧
    (∀ (st : ImportState) (storeId : Nat) (card : Card) (nt : String),
        card.nameText = some nt →
        (card.priceText = none ∨
          ∃ s, card.priceText = some s ∧
            pyFloat (pyStrip (pyReplace (pyReplace (pyStrip s) "₾" "") "," ".")) = none) →
        ∃ pid, (processCard st storeId card).prices = st.prices ++ [(pid, 0)]) := by
  constructor
  · intro st storeId pt img
    rfl
  · intro st storeId card nt hname hprice
    obtain ⟨nameText, priceText, imgSrc⟩ := card
    simp only at hname
    subst hname
    rcases hprice with hp | ⟨s, hp, hnone⟩
    · simp only at hp
      subst hp
      have h1 : pyFloat (pyStrip (pyReplace (pyReplace "0" "₾" "") "," ".")) =
          some ((1 : Rat) * ((digitsNat ['0'] : Rat) +
            (digitsNat ([] : List Char) : Rat) / (10 : Rat) ^ (0 : Nat))) := rfl
      have h2 : (1 : Rat) * ((digitsNat ['0'] : Rat) +
          (digitsNat ([] : List Char) : Rat) / (10 : Rat) ^ (0 : Nat)) = 0 := by
        have d1 : digitsNat ['0'] = 0 := by decide
        have d2 : digitsNat ([] : List Char) = 0 := rfl
        rw [d1, d2]
        norm_num
      simp only [processCard, h1, h2]
      cases hfind : (st.products.findIdx?
          (fun p => p.name == pyStrip nt && p.store_id == storeId)) with
      | some i =>
          refine ⟨i, ?_⟩
          simp [hfind]
      | none =>
          refine ⟨st.products.length, ?_⟩
          simp [hfind]
    · simp only at hp
      subst hp
      simp only [processCard, hnone]
      cases hfind : (st.products.findIdx?
          (fun p => p.name == pyStrip nt && p.store_id == storeId)) with
      | some i =>
          refine ⟨i, ?_⟩
          simp [hfind]
      | none =>
          refine ⟨st.products.length, ?_⟩
          simp [hfind]

/-- C10 witness: a card named "Milk" with unparseable price text "N/A"
still gets a `Price` row with value `0`. -/
theorem C10_witness :
    (Card.mk (some "Milk") (some "N/A") none).nameText = some "Milk" ∧
    pyFloat (pyStrip (pyReplace (pyReplace (pyStrip "N/A") "₾" "") "," ".")) = none ∧
    ∃ pid, (processCard {} 1 ⟨some "Milk", some "N/A", none⟩).prices =
      ({} : ImportState).prices ++ [(pid, 0)] :=
  ⟨rfl, rfl,
   C10_unparseable_price_zero.2 {} 1 ⟨some "Milk", some "N/A", none⟩ "Milk" rfl
     (Or.inr ⟨"N/A", rfl, rfl⟩)⟩
